import Mathlib

/-!
# Verification of the manhwa catalogue backend's cache / search / sync core

A shallow embedding of the data plane of the backend: the three-tier
in-memory cache (`src/utils/cache.ts`), the catalogue service's cache
effects and error paths (`src/services/manhwaService.ts`), the search
WHERE-clause construction (`src/services/manhwaSearchService.ts`), the
request coalescer (`utils/requestCoalescer.ts`), and the upstream
Mangadex client (`mangadexService.ts`): pagination guard, login/token
handling, and endpoint rate limiters.

JavaScript values that matter to the claims (cached values, search
parameters) are modelled by the inductive `JsVal`; JS truthiness by
`JsVal.truthy`; JS objects by insertion-ordered association lists.
-/

namespace Manhco

/-- A JSON-serialisable JavaScript value.  Objects are insertion-ordered
field lists, as in the V8 runtime for non-numeric keys. -/
inductive JsVal where
  | vStr (s : String) : JsVal
  | vNum (n : Int) : JsVal
  | vBool (b : Bool) : JsVal
  | vNull : JsVal
  | vObj (fields : List (String × JsVal)) : JsVal
  | vArr (elems : List JsVal) : JsVal
  deriving Repr

/-- JS truthiness of a value: `0`, `""`, `false` and `null` are falsy;
objects and arrays are always truthy. -/
def JsVal.truthy : JsVal → Bool
  | .vStr s => s ≠ ""
  | .vNum n => n ≠ 0
  | .vBool b => b
  | .vNull => false
  | .vObj _ => true
  | .vArr _ => true

/-- `needle.isSubstrOf hay` models JavaScript `hay.includes(needle)`:
`needle` occurs contiguously inside `hay`. -/
def isSubstrB (needle hay : String) : Bool :=
  let n := needle.data
  let rec go : List Char → Bool
    | [] => n.isPrefixOf []
    | c :: rest => n.isPrefixOf (c :: rest) || go rest
  go hay.data

/-- State of the three independent NodeCache instances of
`src/utils/cache.ts`: `entityCache`, `searchCache`, `tagCache`.  Each is
a key/value map (association list with unique keys); entries model the
stored, unexpired values. -/
structure Caches where
  entity : List (String × JsVal)
  search : List (String × JsVal)
  tag : List (String × JsVal)
  deriving Repr

/-- `NodeCache#get`: the stored value for `key`, or `none` (JS
`undefined`) when the key is absent. -/
def cacheGet (key : String) : List (String × JsVal) → Option JsVal
  | [] => none
  | (k, v) :: rest => if k = key then some v else cacheGet key rest

/-- `getEntityCache` (cache.ts lines 25-32): `entityCache.get<T>(key) || null`.
`none` models the JS `null` / miss result. -/
def getEntityCache (key : String) (c : Caches) : Option JsVal :=
  match cacheGet key c.entity with
  | none => none
  | some v => if v.truthy then some v else none

/-- `getSearchCache` (cache.ts lines 47-53): `searchCache.get<T>(key) || null`. -/
def getSearchCache (key : String) (c : Caches) : Option JsVal :=
  match cacheGet key c.search with
  | none => none
  | some v => if v.truthy then some v else none

/-- `getTagCache` (cache.ts lines 63-69): `tagCache.get<T>(key) || null`. -/
def getTagCache (key : String) (c : Caches) : Option JsVal :=
  match cacheGet key c.tag with
  | none => none
  | some v => if v.truthy then some v else none

/-- `invalidatePattern` (cache.ts lines 79-85): enumerates the keys of
`entityCache`, keeps those whose key contains `pattern` as a substring,
and deletes them from `entityCache`.  The `searchCache` and `tagCache`
instances are not touched. -/
def invalidatePattern (pattern : String) (c : Caches) : Caches :=
  { c with entity := c.entity.filter (fun kv => !(isSubstrB pattern kv.1)) }

/-- Cache effect of a successful `createManhwa`
(manhwaService.ts line 208): `cache.invalidatePattern('search:')`. -/
def createManhwaInvalidation (c : Caches) : Caches :=
  invalidatePattern "search:" c

/-- Cache effect of a successful `syncFromMangadex`
(manhwaService.ts line 294): ``cache.invalidatePattern(`manhwa:entity:${id}`)``. -/
def syncFromMangadexInvalidation (id : Nat) (c : Caches) : Caches :=
  invalidatePattern ("manhwa:entity:" ++ toString id) c

/-- Comparison of JS strings by code unit, as used by the default
`Array.prototype.sort()` comparator (true when `a` sorts at or before `b`). -/
def charListLeB : List Char → List Char → Bool
  | [], _ => true
  | _ :: _, [] => false
  | a :: as, b :: bs =>
    if a.toNat < b.toNat then true
    else if b.toNat < a.toNat then false
    else charListLeB as bs

/-- String ordering used by JavaScript's default sort. -/
def strLe (a b : String) : Prop := charListLeB a.data b.data = true

instance : DecidableRel strLe := fun a b => by
  unfold strLe; infer_instance

mutual

/-- `JSON.stringify` restricted to the values the service serialises
(no escaping is modelled; the search parameters contain none). -/
def stringify : JsVal → String
  | .vStr s => "\"" ++ s ++ "\""
  | .vNum n => toString n
  | .vBool b => if b then "true" else "false"
  | .vNull => "null"
  | .vObj fs => "\x7b" ++ stringifyFields fs ++ "\x7d"
  | .vArr es => "[" ++ stringifyElems es ++ "]"

def stringifyFields : List (String × JsVal) → String
  | [] => ""
  | [(k, v)] => "\"" ++ k ++ "\":" ++ stringify v
  | (k, v) :: kv :: rest =>
    "\"" ++ k ++ "\":" ++ stringify v ++ "," ++ stringifyFields (kv :: rest)

def stringifyElems : List JsVal → String
  | [] => ""
  | [v] => stringify v
  | v :: w :: rest => stringify v ++ "," ++ stringifyElems (w :: rest)

end

/-- JS property read `params[key]` for an object modelled as an ordered
field list (returns `null` in the impossible missing case; the keys fed
to it always come from the object itself). -/
def getField (k : String) : List (String × JsVal) → JsVal
  | [] => .vNull
  | (k', v) :: rest => if k' = k then v else getField k rest

/-- `generateSearchCacheKey` (cache.ts lines 87-95):
`Object.keys(params).sort()` then a `reduce` re-inserting each key in
sorted order, then `"search:" + JSON.stringify(sorted)`.  Only the
top-level keys are sorted; nested objects keep their insertion order. -/
def generateSearchCacheKey (params : List (String × JsVal)) : String :=
  "search:" ++ stringify (.vObj
    ((List.insertionSort strLe (params.map Prod.fst)).map
      (fun k => (k, getField k params))))

/-- Ordering of object fields by key, for the canonical form below. -/
def fieldLe (a b : String × JsVal) : Prop := strLe a.1 b.1

instance : DecidableRel fieldLe := fun a b => by
  unfold fieldLe; infer_instance

mutual

/-- Canonical form of a JS value: every object's fields recursively
sorted by key.  Two values are "logically equal up to field order"
exactly when their canonical forms coincide. -/
def canonJs : JsVal → JsVal
  | .vObj fs => .vObj (List.insertionSort fieldLe (canonFields fs))
  | .vArr es => .vArr (canonElems es)
  | .vStr s => .vStr s
  | .vNum n => .vNum n
  | .vBool b => .vBool b
  | .vNull => .vNull

def canonFields : List (String × JsVal) → List (String × JsVal)
  | [] => []
  | (k, v) :: rest => (k, canonJs v) :: canonFields rest

def canonElems : List JsVal → List JsVal
  | [] => []
  | v :: rest => canonJs v :: canonElems rest

end

/-! ## Error handling (`src/utils/errorHandler.ts`) -/

/-- The `ErrorAppCode` enum (errorHandler.ts), including the
manhwa-specific codes. -/
inductive ErrorAppCode where
  | Unknown | ServerError | ValidationFailed | UserNotFound | UserAlreadyExists
  | MissingNSFWPolicy | CountryBanned | CountryLimited | BirthdayRequired
  | Underage | Unauthorised | InsufficientPermissions | BadInput
  | ManhwaNotFound | ManhwaSearchFailed | ExternalApiError | RateLimitExceeded
  | InvalidManhwaData | SyncFailed | ImageProcessingFailed
  | ContentFilterRequired | PaginationLimitExceeded | InvalidContent
  deriving Repr, DecidableEq

/-- The `AppError` class: message, HTTP status code, app code.
`appCode = none` models a JS `undefined` app code. -/
structure AppError where
  message : String
  statusCode : Nat
  appCode : Option ErrorAppCode
  deriving Repr, DecidableEq

/-- A JS exception value as seen by a `catch` block: either an
`AppError` instance (whose `name` property is `"Error"`, since the class
never overrides it), a `ZodError`, or some other error carrying the
fields `parsePrismaError` inspects. -/
inductive Thrown where
  | app (e : AppError)
  | zod (message : String)
  | other (name message : String) (meta : Option ErrorAppCode)
  deriving Repr, DecidableEq

/-- `err.name`. -/
def Thrown.jsName : Thrown → String
  | .app _ => "Error"
  | .zod _ => "ZodError"
  | .other n _ _ => n

/-- `err.message`. -/
def Thrown.jsMessage : Thrown → String
  | .app e => e.message
  | .zod m => m
  | .other _ m _ => m

/-- `err.meta` — `undefined` on `AppError` and `ZodError` instances,
which define no such property. -/
def Thrown.jsMeta : Thrown → Option ErrorAppCode
  | .app _ => none
  | .zod _ => none
  | .other _ _ meta => meta

/-- `parsePrismaError` (errorHandler.ts lines 36-44): a `ZodError`
becomes a 400 "Validation failed" (its `err.errors` array is passed
where an app code belongs, so no enum code results); every other error —
`AppError` instances included, since nothing checks for them — is
re-wrapped as `new AppError(err.message || "Unknown error", 500, err.meta)`. -/
def parsePrismaError (err : Thrown) : AppError :=
  if err.jsName = "ZodError" then
    { message := "Validation failed", statusCode := 400, appCode := none }
  else
    { message := if err.jsMessage = "" then "Unknown error" else err.jsMessage,
      statusCode := 500,
      appCode := err.jsMeta }

/-- The duplicate-check slice of `importFromMangadex`
(manhwaService.ts lines 393-439): inside the `try`, an existing row with
the requested `mangadexId` raises `AppError('This Korean manhwa is
already in the database', 400, BadInput)`; the surrounding `catch`
rethrows `parsePrismaError(error)`, which is what the caller observes. -/
def importFromMangadex (existingUpstreamIds : List String)
    (mangadexId : String) : Except AppError Unit :=
  let body : Except Thrown Unit :=
    if mangadexId ∈ existingUpstreamIds then
      .error (.app { message := "This Korean manhwa is already in the database",
                     statusCode := 400, appCode := some .BadInput })
    else
      .ok ()
  match body with
  | .ok u => .ok u
  | .error e => .error (parsePrismaError e)

/-- The missing-row slice of `getManhwaById`
(manhwaService.ts lines 117-161): inside the `try`, an absent id raises
`AppError('Manhwa not found', 404, ManhwaNotFound)`; the surrounding
`catch` rethrows `parsePrismaError(error)`. -/
def getManhwaById (knownIds : List Nat) (id : Nat) : Except AppError Unit :=
  let body : Except Thrown Unit :=
    if id ∈ knownIds then
      .ok ()
    else
      .error (.app { message := "Manhwa not found",
                     statusCode := 404, appCode := some .ManhwaNotFound })
  match body with
  | .ok u => .ok u
  | .error e => .error (parsePrismaError e)

/-! ## Upstream client (`mangadexService.ts`) -/

/-- Options accepted by `searchMangadex` (the pagination-relevant part). -/
structure SearchOptions where
  limit : Option Nat := none
  offset : Option Nat := none
  deriving Repr, DecidableEq

/-- `Math.min(options.limit || 20, 100)` — `0` is falsy in JS, so a zero
limit also falls back to the default 20. -/
def effectiveLimit (o : SearchOptions) : Nat :=
  min (match o.limit with
       | some l => if l = 0 then 20 else l
       | none => 20) 100

/-- `options.offset || 0`. -/
def effectiveOffset (o : SearchOptions) : Nat :=
  match o.offset with
  | some x => x
  | none => 0

/-- The `PaginationLimitExceeded` error thrown by `searchMangadex`. -/
def paginationCeilingError : AppError :=
  { message := "Search results beyond 10,000 items are not available",
    statusCode := 400, appCode := some .PaginationLimitExceeded }

/-- The pagination slice of `searchMangadex` (mangadexService.ts lines
165-243): the limit is first clamped (`Math.min(options.limit || 20,
100)`), the offset defaulted, and only then is `offset + limit > 10000`
checked; on success the upstream `GET /manga` request is performed with
the clamped values (returned here as the `(limit, offset)` pair of the
performed request — an `error` result performs no upstream request). -/
def searchMangadex (o : SearchOptions) : Except AppError (Nat × Nat) :=
  if effectiveOffset o + effectiveLimit o > 10000 then
    .error paginationCeilingError
  else
    .ok (effectiveLimit o, effectiveOffset o)

/-- State of the Mangadex client relevant to login rate limiting:
the module-level `authToken` / `tokenExpiry`, the points so far consumed
from the `'login'` entry of `endpointLimiters` (30 points per 3600 s),
and the log of login HTTP requests actually issued (timestamps, ms). -/
structure MdClientState where
  authToken : Option String
  tokenExpiryMs : Option Int
  loginLimiterConsumed : Nat
  loginLog : List Int
  deriving Repr, DecidableEq

/-- Client state at module load. -/
def mdInit : MdClientState :=
  { authToken := none, tokenExpiryMs := none,
    loginLimiterConsumed := 0, loginLog := [] }

/-- The token-validity test of `ensureValidToken` (mangadexService.ts
line 136): a cached token with more than a 1-minute margin. -/
def tokenValid (st : MdClientState) (nowMs : Int) : Bool :=
  match st.authToken, st.tokenExpiryMs with
  | some _, some exp => decide (exp > nowMs + 60000)
  | _, _ => false

/-- `ensureValidToken` (mangadexService.ts lines 134-162): returns the
cached token when still valid; otherwise issues a login POST with the
bare `axios` client — neither `checkEndpointRateLimit('login')` nor the
global interceptor's limiter is consulted on this path — and on success
caches the token for 14 minutes; on upstream failure throws, leaving the
token unset.  `loginOutcome` is the upstream's response to the POST. -/
def ensureValidToken (nowMs : Int) (loginOutcome : Option String)
    (st : MdClientState) : MdClientState × Except AppError String :=
  if tokenValid st nowMs then
    (st, match st.authToken with
         | some tok => .ok tok
         | none => .error { message := "unreachable", statusCode := 500, appCode := none })
  else
    let st' := { st with loginLog := st.loginLog ++ [nowMs] }
    match loginOutcome with
    | some tok =>
      ({ st' with authToken := some tok,
                  tokenExpiryMs := some (nowMs + 14 * 60 * 1000) }, .ok tok)
    | none =>
      (st', .error { message := "Failed to authenticate with Mangadex",
                     statusCode := 500, appCode := some .ExternalApiError })

/-- `checkEndpointRateLimit('login')` (mangadexService.ts lines
383-396), as it would behave if called: consume one point from the
30-per-3600-s login limiter, failing with 429 when exhausted.  No code
in the repository calls it. -/
def checkEndpointRateLimitLogin (st : MdClientState) :
    MdClientState × Except AppError Unit :=
  if st.loginLimiterConsumed < 30 then
    ({ st with loginLimiterConsumed := st.loginLimiterConsumed + 1 }, .ok ())
  else
    (st, .error { message := "Rate limit exceeded for login endpoint",
                  statusCode := 429, appCode := some .RateLimitExceeded })

/-- `n` consecutive `ensureValidToken` calls, one per millisecond
starting at time 0, each of whose login POST fails upstream. -/
def runFailedLogins : Nat → MdClientState
  | 0 => mdInit
  | n + 1 => (ensureValidToken (Int.ofNat n) none (runFailedLogins n)).1

/-! ## Search (`src/services/manhwaSearchService.ts`) -/

/-- The request's `yearRange` filter; `rangeEnd` is its `end` field. -/
structure YearRange where
  start : Int
  rangeEnd : Int
  deriving Repr, DecidableEq

/-- The request's `filters` object. -/
structure SearchFilters where
  status : Option (List String) := none
  genres : Option (List String) := none
  yearRange : Option YearRange := none
  deriving Repr, DecidableEq

/-- The request's `pagination` object. -/
structure Pagination where
  page : Nat
  limit : Nat
  deriving Repr, DecidableEq

/-- `SearchParams` as consumed by the search service. -/
structure SearchParams where
  query : String
  filters : Option SearchFilters := none
  pagination : Pagination := { page := 1, limit := 20 }
  includeExternal : Bool := false
  deriving Repr, DecidableEq

/-- A stored `manhwa` row, restricted to the columns the WHERE clauses
inspect.  `matchesQueryVector` is the outcome of
`m.search_vector @@ plainto_tsquery('english', sanitizedQuery)` for the
request under consideration, which the database computes per row. -/
structure ManhwaRow where
  id : Nat
  startYear : Option Int := none
  endYear : Option Int := none
  status : String := "ONGOING"
  genreSlugs : List String := []
  matchesQueryVector : Bool := false
  deriving Repr, DecidableEq

/-- `params.query.replace(/['"\\]/g, '')` (manhwaSearchService.ts line 86). -/
def sanitizeQuery (q : String) : String :=
  String.mk (q.data.filter (fun c => !(c = '\'' || c = '"' || c = '\\')))

/-- JavaScript `String.prototype.trim`: strip leading and trailing
whitespace. -/
def jsTrim (s : String) : String :=
  String.mk
    (((s.data.dropWhile Char.isWhitespace).reverse.dropWhile
        Char.isWhitespace).reverse)

/-- The branch test `params.query && params.query.trim()`
(manhwaSearchService.ts line 84): the full-text path runs exactly when
the trimmed raw query is non-empty. -/
def usesFullTextPath (p : SearchParams) : Bool :=
  !(jsTrim p.query = "")

/-- The request's status filter, `[]` when absent. -/
def statusFilterList (p : SearchParams) : List String :=
  match p.filters with
  | some f => f.status.getD []
  | none => []

/-- The request's genre filter, `[]` when absent. -/
def genreFilterList (p : SearchParams) : List String :=
  match p.filters with
  | some f => f.genres.getD []
  | none => []

/-- The request's year-range filter. -/
def yearRangeFilter (p : SearchParams) : Option YearRange :=
  match p.filters with
  | some f => f.yearRange
  | none => none

/-- Status condition: `m.status = ANY(status.map(toUpperCase))`,
appended only when the status filter is non-empty. -/
def statusCond (p : SearchParams) (row : ManhwaRow) : Bool :=
  match statusFilterList p with
  | [] => true
  | l => (l.map String.toUpper).contains row.status

/-- Genre condition: `EXISTS (… junction … WHERE g.slug = ANY(genres))`,
appended only when the genre filter is non-empty. -/
def genreCond (p : SearchParams) (row : ManhwaRow) : Bool :=
  match genreFilterList p with
  | [] => true
  | l => row.genreSlugs.any (fun s => l.contains s)

/-- The year-range condition `buildSearchWhere` builds
(manhwaSearchService.ts lines 26-51):
`OR [ startYear BETWEEN start AND end,
      AND [ startYear ≤ start, OR [ endYear ≥ start, endYear IS NULL ] ] ]`.
A null `startYear` satisfies neither comparison, as in SQL. -/
def yearCond (p : SearchParams) (row : ManhwaRow) : Bool :=
  match yearRangeFilter p with
  | none => true
  | some yr =>
    match row.startYear with
    | none => false
    | some s =>
      (decide (yr.start ≤ s) && decide (s ≤ yr.rangeEnd)) ||
      (decide (s ≤ yr.start) &&
        (match row.endYear with
         | some e => decide (yr.start ≤ e)
         | none => true))

/-- Row admission of the raw-SQL full-text query
(manhwaSearchService.ts lines 107-137): the vector match AND the status
condition AND the genre condition.  The year-range part of
`buildSearchWhere` is not interpolated into this query. -/
def fullTextWhere (p : SearchParams) (row : ManhwaRow) : Bool :=
  row.matchesQueryVector && statusCond p row && genreCond p row

/-- Row admission of the empty-query filter path
(manhwaSearchService.ts lines 165-192), i.e. `buildSearchWhere`
interpreted over a row: status AND year-range AND genre conditions. -/
def filterWhere (p : SearchParams) (row : ManhwaRow) : Bool :=
  statusCond p row && yearCond p row && genreCond p row

/-- The spec's year-overlap criterion, written as stated:
`max(s, rs) ≤ min(e ?? +∞, re)`. -/
def yearOverlapSpec (yr : YearRange) (s : Int) (e : Option Int) : Bool :=
  decide (max s yr.start ≤ (match e with
                            | some ev => min ev yr.rangeEnd
                            | none => yr.rangeEnd))

/-- Synopsis mapping of the raw-SQL full-text path
(manhwaSearchService.ts line 112): `SUBSTRING(m.synopsis, 1, 200) || '...'`. -/
def synopsisFullText (s : String) : String :=
  String.mk (s.data.take 200) ++ "..."

/-- Synopsis mapping of the empty-query filter path
(manhwaSearchService.ts line 199): `manhwa.synopsis.substring(0, 200) + '...'`. -/
def synopsisFilter (s : String) : String :=
  String.mk (s.data.take 200) ++ "..."

/-- Synopsis mapping of the external-fallback path
(manhwaService.ts lines 381-384): the language-fallback description,
then `.substring(0, 200) + '...'`. -/
def synopsisExternal (s : String) : String :=
  String.mk (s.data.take 200) ++ "..."

/-! ## Request coalescer (`utils/requestCoalescer.ts`) -/

/-- Outcome of a producer: the promise fulfils or rejects. -/
inductive Outcome where
  | ok (v : Nat)
  | err (e : Nat)
  deriving Repr, DecidableEq

/-- State of `RequestCoalescer` for one fixed key, together with the
execution history the claims speak about.  `pending` is the map entry
for the key (the registered task's id); `nextId` numbers producer
invocations; `assigned` records which task each caller was handed;
`outcomes` records each settled task's outcome. -/
structure CoState where
  pending : Option Nat
  nextId : Nat
  invocations : Nat
  assigned : List (Nat × Nat)
  outcomes : List (Nat × Outcome)
  deriving Repr, DecidableEq

/-- Atomic events of the single-threaded JS execution of `coalesce`:
`arrive c` is one caller's synchronous pass through the body (the
`has`/`get`/`fn()`/`set` sequence contains no `await`, so it is one
atomic step); `settle o` is the producer's promise settling with
outcome `o`; `cleanup` is the `.finally` callback deleting the key,
which the runtime schedules only after the promise has settled. -/
inductive CoEvent where
  | arrive (caller : Nat)
  | settle (o : Outcome)
  | cleanup
  deriving Repr, DecidableEq

/-- Initial state: empty `pending` map, no history. -/
def coInit : CoState :=
  { pending := none, nextId := 0, invocations := 0, assigned := [], outcomes := [] }

/-- One step of the coalescer semantics (requestCoalescer.ts lines 5-16).
An arriving caller joins the registered task if one exists, otherwise
invokes the producer and registers the new task.  `settle` records the
pending task's outcome; `cleanup` (the `finally` delete) is enabled only
once that outcome is recorded. -/
def coStep (st : CoState) : CoEvent → CoState
  | .arrive c =>
    match st.pending with
    | some t => { st with assigned := (c, t) :: st.assigned }
    | none =>
      { st with pending := some st.nextId,
                nextId := st.nextId + 1,
                invocations := st.invocations + 1,
                assigned := (c, st.nextId) :: st.assigned }
  | .settle o =>
    match st.pending with
    | some t =>
      match st.outcomes.lookup t with
      | none => { st with outcomes := (t, o) :: st.outcomes }
      | some _ => st
    | none => st
  | .cleanup =>
    match st.pending with
    | some t =>
      match st.outcomes.lookup t with
      | some _ => { st with pending := none }
      | none => st
    | none => st

/-- Run a list of events from a state. -/
def coRun (st : CoState) (es : List CoEvent) : CoState :=
  es.foldl coStep st

/-- Safety invariant of the coalescer semantics: any task that has been
invoked and is no longer registered has a recorded outcome. -/
def coInv (st : CoState) : Prop :=
  (∀ t, st.pending = some t → t < st.nextId) ∧
  (∀ t, t < st.nextId → st.pending ≠ some t →
    (st.outcomes.lookup t).isSome = true)

/-- The cache-hit step of `searchManhwa` (manhwaService.ts lines 41-47):
derive the search key from the params object and return the cached
response when the lookup is truthy. -/
def searchManhwaCacheHit (paramsJs : List (String × JsVal)) (c : Caches) :
    Option JsVal :=
  getSearchCache (generateSearchCacheKey paramsJs) c

/-- Replace the request's year-range filter, keeping every other field.
Used to state that the full-text WHERE clause is insensitive to it. -/
def withYearRange (p : SearchParams) (yr : Option YearRange) : SearchParams :=
  { p with filters := some {
      status := (match p.filters with | some f => f.status | none => none),
      genres := (match p.filters with | some f => f.genres | none => none),
      yearRange := yr } }

/-! ## Fixtures -/

/-- A search-params object as serialised for key derivation. -/
def c1paramsJs : List (String × JsVal) :=
  [("query", .vStr "tower"),
   ("pagination", .vObj [("page", .vNum 1), ("limit", .vNum 20)]),
   ("includeExternal", .vBool false)]

/-- A cached search response for those params. -/
def c1response : JsVal := .vObj [("results", .vArr [.vObj [("id", .vNum 3)]])]

/-- Cache state holding one entity entry and one search entry keyed by
`c1paramsJs`'s derived key. -/
def c1caches : Caches :=
  { entity := [("manhwa:entity:7", .vObj [("id", .vNum 7)])],
    search := [(generateSearchCacheKey c1paramsJs, c1response)],
    tag := [] }

/-- A full-text search request asking for year range 2000-2005. -/
def c3params : SearchParams :=
  { query := "solo leveling",
    filters := some { yearRange := some { start := 2000, rangeEnd := 2005 } },
    pagination := { page := 1, limit := 20 } }

/-- A row running 1990-1995 that matches the query vector. -/
def c3row : ManhwaRow :=
  { id := 1, startYear := some 1990, endYear := some 1995,
    matchesQueryVector := true }

/-- An empty-query request asking for year range 2000-2005. -/
def c3wParams : SearchParams :=
  { query := "",
    filters := some { yearRange := some { start := 2000, rangeEnd := 2005 } },
    pagination := { page := 1, limit := 20 } }

/-- A row running 1999-2001. -/
def c3wRow : ManhwaRow :=
  { id := 2, startYear := some 1999, endYear := some 2001 }

/-- Search params whose `filters` object lists `status` before `genres`. -/
def c7p : List (String × JsVal) :=
  [("query", .vStr "solo"),
   ("filters", .vObj [("status", .vArr [.vStr "ongoing"]),
                      ("genres", .vArr [.vStr "action"])])]

/-- The same logical params with the nested `filters` fields swapped. -/
def c7pSwapped : List (String × JsVal) :=
  [("query", .vStr "solo"),
   ("filters", .vObj [("genres", .vArr [.vStr "action"]),
                      ("status", .vArr [.vStr "ongoing"])])]

/-- Entity cache holding entries for ids 1 and 12. -/
def c8caches : Caches :=
  { entity := [("manhwa:entity:1", .vObj [("id", .vNum 1)]),
               ("manhwa:entity:12", .vObj [("id", .vNum 12)])],
    search := [],
    tag := [] }

/-- Each tier stores one unexpired falsy value under key `"k"`. -/
def c10caches : Caches :=
  { entity := [("k", .vNum 0)],
    search := [("k", .vStr "")],
    tag := [("k", .vBool false)] }

/-! ## Helper lemmas -/

theorem charListLeB_total (a b : List Char) :
    charListLeB a b = true ∨ charListLeB b a = true := by
  induction a generalizing b with
  | nil => left; rfl
  | cons x xs ih =>
    cases b with
    | nil => right; rfl
    | cons y ys =>
      by_cases h1 : x.toNat < y.toNat
      · left; simp [charListLeB, h1]
      · by_cases h2 : y.toNat < x.toNat
        · right; simp [charListLeB, h2]
        · rcases ih ys with h | h
          · left; simp [charListLeB, h1, h2, h]
          · right; simp [charListLeB, h1, h2, h]

theorem charListLeB_trans (a b c : List Char) (h1 : charListLeB a b = true)
    (h2 : charListLeB b c = true) : charListLeB a c = true := by
  induction a generalizing b c with
  | nil => rfl
  | cons x xs ih =>
    cases b with
    | nil => simp [charListLeB] at h1
    | cons y ys =>
      cases c with
      | nil => simp [charListLeB] at h2
      | cons z zs =>
        simp only [charListLeB] at h1 h2 ⊢
        by_cases hyx : y.toNat < x.toNat
        · rw [if_neg (by omega), if_pos hyx] at h1
          simp at h1
        · by_cases hzy : z.toNat < y.toNat
          · rw [if_neg (by omega), if_pos hzy] at h2
            simp at h2
          · by_cases hxy : x.toNat < y.toNat
            · rw [if_pos (by omega)]
            · by_cases hyz : y.toNat < z.toNat
              · rw [if_pos (by omega)]
              · rw [if_neg hxy, if_neg hyx] at h1
                rw [if_neg hyz, if_neg hzy] at h2
                rw [if_neg (by omega), if_neg (by omega)]
                exact ih ys zs h1 h2

theorem charListLeB_antisymm (a b : List Char) (h1 : charListLeB a b = true)
    (h2 : charListLeB b a = true) : a = b := by
  induction a generalizing b with
  | nil =>
    cases b with
    | nil => rfl
    | cons y ys => simp [charListLeB] at h2
  | cons x xs ih =>
    cases b with
    | nil => simp [charListLeB] at h1
    | cons y ys =>
      by_cases hxy : x.toNat < y.toNat
      · have hyx : ¬ y.toNat < x.toNat := by omega
        simp [charListLeB, hyx, hxy] at h2
      · by_cases hyx : y.toNat < x.toNat
        · simp [charListLeB, hxy, hyx] at h1
        · have hn : x.toNat = y.toNat := by omega
          have hc : x = y := Char.ext (UInt32.ext hn)
          subst hc
          have hr1 : charListLeB xs ys = true := by
            simpa [charListLeB] using h1
          have hr2 : charListLeB ys xs = true := by
            simpa [charListLeB] using h2
          rw [ih ys hr1 hr2]

instance : IsTotal String strLe :=
  ⟨fun a b => charListLeB_total a.data b.data⟩

instance : IsTrans String strLe :=
  ⟨fun a b c => charListLeB_trans a.data b.data c.data⟩

instance : IsAntisymm String strLe :=
  ⟨fun a b h1 h2 => by
    cases a; cases b
    exact congrArg String.mk (charListLeB_antisymm _ _ h1 h2)⟩

theorem cacheGet_filter (p : String → Bool) (key : String)
    (l : List (String × JsVal)) :
    cacheGet key (l.filter fun kv => !(p kv.1)) =
      (if p key then none else cacheGet key l) := by
  induction l with
  | nil => simp [cacheGet]
  | cons kv rest ih =>
    obtain ⟨k, v⟩ := kv
    by_cases hk : k = key
    · subst hk
      by_cases hp : p k
      · simp [List.filter, hp, ih, cacheGet]
      · simp [List.filter, hp, cacheGet]
    · by_cases hp : p k
      · simp [List.filter, hp, ih, cacheGet, hk]
      · simp [List.filter, hp, ih, cacheGet, hk]

theorem getField_perm {l l' : List (String × JsVal)} (h : l.Perm l')
    (hnd : (l.map Prod.fst).Nodup) (k : String) :
    getField k l = getField k l' := by
  induction h with
  | nil => rfl
  | cons x h ih =>
    obtain ⟨kx, vx⟩ := x
    simp only [List.map_cons, List.nodup_cons] at hnd
    by_cases hk : kx = k
    · simp [getField, hk]
    · simp [getField, hk, ih hnd.2]
  | swap x y l =>
    obtain ⟨kx, vx⟩ := x
    obtain ⟨ky, vy⟩ := y
    simp only [List.map_cons, List.nodup_cons, List.mem_cons] at hnd
    by_cases h2 : ky = k
    · by_cases h1 : kx = k
      · exact absurd (h2.trans h1.symm) (fun hc => hnd.1 (Or.inl hc))
      · simp [getField, h1, h2]
    · by_cases h1 : kx = k
      · simp [getField, h1, h2]
      · simp [getField, h1, h2]
  | trans h1 h2 ih1 ih2 =>
    have hnd2 := (List.Perm.nodup_iff (h1.map Prod.fst)).mp hnd
    exact (ih1 hnd).trans (ih2 hnd2)

/-- Callers arriving while a task is registered only join it: the map
entry, invocation count, task counter and outcomes are untouched, and
every assignment they add names the registered task. -/
theorem coRun_arrives_join (cs : List Nat) (st : CoState) (t : Nat)
    (h : st.pending = some t) :
    (coRun st (cs.map CoEvent.arrive)).pending = some t ∧
    (coRun st (cs.map CoEvent.arrive)).invocations = st.invocations ∧
    (coRun st (cs.map CoEvent.arrive)).nextId = st.nextId ∧
    (coRun st (cs.map CoEvent.arrive)).outcomes = st.outcomes ∧
    (∀ a ∈ (coRun st (cs.map CoEvent.arrive)).assigned,
      a ∈ st.assigned ∨ a.2 = t) := by
  induction cs generalizing st with
  | nil => exact ⟨h, rfl, rfl, rfl, fun a ha => Or.inl ha⟩
  | cons c cs ih =>
    have hstep : coStep st (.arrive c) =
        { st with assigned := (c, t) :: st.assigned } := by
      simp [coStep, h]
    have hrun : coRun st ((c :: cs).map CoEvent.arrive) =
        coRun { st with assigned := (c, t) :: st.assigned }
          (cs.map CoEvent.arrive) := by
      simp only [List.map_cons, coRun, List.foldl_cons, hstep]
    rw [hrun]
    obtain ⟨h1, h2, h3, h4, h5⟩ :=
      ih { st with assigned := (c, t) :: st.assigned } h
    refine ⟨h1, h2, h3, h4, fun a ha => ?_⟩
    rcases h5 a ha with hmem | ht
    · rcases List.mem_cons.mp hmem with hac | hmem'
      · exact Or.inr (by rw [hac])
      · exact Or.inl hmem'
    · exact Or.inr ht

theorem coInv_init : coInv coInit := by
  constructor
  · intro t h
    simp [coInit] at h
  · intro t ht
    simp [coInit] at ht

theorem coInv_step (st : CoState) (e : CoEvent) (h : coInv st) :
    coInv (coStep st e) := by
  obtain ⟨hp, ho⟩ := h
  cases e with
  | arrive c =>
    cases hpend : st.pending with
    | some t' =>
      have hred : coStep st (.arrive c) =
          { st with assigned := (c, t') :: st.assigned } := by
        simp [coStep, hpend]
      rw [hred]
      refine ⟨?_, ?_⟩
      · intro t ht
        exact hp t ht
      · intro t ht hne
        exact ho t ht hne
    | none =>
      have hred : coStep st (.arrive c) =
          { st with pending := some st.nextId,
                    nextId := st.nextId + 1,
                    invocations := st.invocations + 1,
                    assigned := (c, st.nextId) :: st.assigned } := by
        simp [coStep, hpend]
      rw [hred]
      refine ⟨?_, ?_⟩
      · intro t ht
        have ht' : some st.nextId = some t := ht
        have := Option.some.inj ht'
        show t < st.nextId + 1
        omega
      · intro t ht hne
        have ht' : t < st.nextId + 1 := ht
        have hne' : ¬ st.nextId = t := fun hc => hne (by rw [hc])
        have htlt : t < st.nextId := by omega
        show (st.outcomes.lookup t).isSome = true
        exact ho t htlt (by rw [hpend]; simp)
  | settle o =>
    cases hpend : st.pending with
    | none =>
      have : coStep st (.settle o) = st := by simp [coStep, hpend]
      rw [this]
      exact ⟨hp, ho⟩
    | some t' =>
      cases hlk : st.outcomes.lookup t' with
      | some o' =>
        have : coStep st (.settle o) = st := by simp [coStep, hpend, hlk]
        rw [this]
        exact ⟨hp, ho⟩
      | none =>
        have hred : coStep st (.settle o) =
            { st with outcomes := (t', o) :: st.outcomes } := by
          simp [coStep, hpend, hlk]
        rw [hred]
        refine ⟨?_, ?_⟩
        · intro t ht
          exact hp t ht
        · intro t ht hne
          by_cases htt : t = t'
          · subst htt
            exact absurd hpend hne
          · have hbeq : (t == t') = false := by
              simp [htt]
            have hlkc : List.lookup t ((t', o) :: st.outcomes) =
                List.lookup t st.outcomes := by
              simp [List.lookup, hbeq]
            show (List.lookup t ((t', o) :: st.outcomes)).isSome = true
            rw [hlkc]
            exact ho t ht hne
  | cleanup =>
    cases hpend : st.pending with
    | none =>
      have : coStep st .cleanup = st := by simp [coStep, hpend]
      rw [this]
      exact ⟨hp, ho⟩
    | some t' =>
      cases hlk : st.outcomes.lookup t' with
      | none =>
        have : coStep st .cleanup = st := by simp [coStep, hpend, hlk]
        rw [this]
        exact ⟨hp, ho⟩
      | some o' =>
        have hred : coStep st .cleanup = { st with pending := none } := by
          simp [coStep, hpend, hlk]
        rw [hred]
        refine ⟨?_, ?_⟩
        · intro t ht
          simp at ht
        · intro t ht hne
          simp only at ht ⊢
          by_cases htt : t = t'
          · subst htt
            rw [hlk]
            rfl
          · exact ho t ht (by rw [hpend]; intro hc; exact htt (Option.some.inj hc).symm)

theorem coInv_run (es : List CoEvent) : ∀ st, coInv st → coInv (coRun st es) := by
  induction es with
  | nil => intro st h; exact h
  | cons e es ih => intro st h; exact ih _ (coInv_step st e h)

/-! ## Claims -/

/-- Claim C1: refuted on the code.  `invalidatePattern` only deletes
keys of the *entity* cache, while search responses are stored in the
separate *search* cache; so after `createManhwa`'s
`invalidatePattern('search:')` (and after `syncFromMangadex`, which
never names `'search:'` at all) the previously cached search response
survives, and the very next `searchManhwa` with the same params returns
the response cached strictly before the write. -/
theorem create_and_sync_leave_search_cache_stale :
    searchManhwaCacheHit c1paramsJs c1caches = some c1response ∧
    searchManhwaCacheHit c1paramsJs (createManhwaInvalidation c1caches) =
      some c1response ∧
    searchManhwaCacheHit c1paramsJs (syncFromMangadexInvalidation 7 c1caches) =
      some c1response ∧
    (createManhwaInvalidation c1caches).search = c1caches.search ∧
    (syncFromMangadexInvalidation 7 c1caches).search = c1caches.search := by
  refine ⟨rfl, rfl, rfl, rfl, rfl⟩

/-- Claim C2: refuted on the code.  The `catch` blocks of
`importFromMangadex` and `getManhwaById` rethrow through
`parsePrismaError`, which has no `AppError` pass-through: the duplicate
import's `BadInput` 400 and the missing id's `ManhwaNotFound` 404 both
reach the caller re-wrapped as status 500 with an undefined app code
(`err.meta` of an `AppError` is undefined). -/
theorem import_and_get_errors_rewrapped :
    importFromMangadex ["U-1"] "U-1" =
      .error { message := "This Korean manhwa is already in the database",
               statusCode := 500, appCode := none } ∧
    getManhwaById [] 7 =
      .error { message := "Manhwa not found",
               statusCode := 500, appCode := none } ∧
    parsePrismaError (.app { message := "This Korean manhwa is already in the database",
                             statusCode := 400, appCode := some .BadInput }) =
      { message := "This Korean manhwa is already in the database",
        statusCode := 500, appCode := none } ∧
    parsePrismaError (.app { message := "Manhwa not found",
                             statusCode := 404, appCode := some .ManhwaNotFound }) =
      { message := "Manhwa not found", statusCode := 500, appCode := none } := by
  refine ⟨rfl, rfl, rfl, rfl⟩

/-- Claim C8, counterexample: after `SyncOne(1, …)`, the entity entry
for id 12 — present before the sync — is gone as well, because
`invalidatePattern` matches `"manhwa:entity:1"` as a *substring* and
`"manhwa:entity:12"` contains it. -/
theorem syncOne_deletes_prefix_sibling :
    cacheGet "manhwa:entity:12" c8caches.entity =
      some (.vObj [("id", .vNum 12)]) ∧
    cacheGet "manhwa:entity:12" (syncFromMangadexInvalidation 1 c8caches).entity =
      none := by
  exact ⟨rfl, rfl⟩

/-- Claim C8, amended: after a successful `SyncOne(id, …)` exactly the
entity-cache entries whose key *contains* `"manhwa:entity:{id}"` as a
substring are removed (which includes every id having `{id}` as a
decimal prefix); entries whose keys do not contain that substring, and
the whole search and tag tiers, are unchanged. -/
theorem syncOne_invalidates_by_substring (c : Caches) (id : Nat) (key : String) :
    cacheGet key (syncFromMangadexInvalidation id c).entity =
      (if isSubstrB ("manhwa:entity:" ++ toString id) key then none
       else cacheGet key c.entity) ∧
    (syncFromMangadexInvalidation id c).search = c.search ∧
    (syncFromMangadexInvalidation id c).tag = c.tag := by
  refine ⟨?_, rfl, rfl⟩
  have h := cacheGet_filter
    (fun s => isSubstrB ("manhwa:entity:" ++ toString id) s) key c.entity
  simpa [syncFromMangadexInvalidation, invalidatePattern] using h

/-- Claim C10: on every cache tier, a stored unexpired falsy value (`0`,
`""`, `false`, `null`) is returned as `null` by the public getter —
`cache.get(key) || null` collapses present falsy values into misses. -/
theorem falsy_cached_values_read_as_miss (c : Caches) (key : String)
    (v : JsVal) (hfalsy : v.truthy = false) :
    (cacheGet key c.entity = some v → getEntityCache key c = none) ∧
    (cacheGet key c.search = some v → getSearchCache key c = none) ∧
    (cacheGet key c.tag = some v → getTagCache key c = none) := by
  refine ⟨fun h => ?_, fun h => ?_, fun h => ?_⟩ <;>
    simp [getEntityCache, getSearchCache, getTagCache, h, hfalsy]

/-- Witness for C10 at concrete falsy values on each tier. -/
theorem falsy_cached_values_read_as_miss_witness :
    getEntityCache "k" c10caches = none ∧
    getSearchCache "k" c10caches = none ∧
    getTagCache "k" c10caches = none := by
  refine ⟨?_, ?_, ?_⟩
  · exact (falsy_cached_values_read_as_miss c10caches "k" (.vNum 0) rfl).1 rfl
  · exact (falsy_cached_values_read_as_miss c10caches "k" (.vStr "") rfl).2.1 rfl
  · exact (falsy_cached_values_read_as_miss c10caches "k" (.vBool false) rfl).2.2 rfl

/-- Claim C4: for any group of callers that arrive concurrently at a
key with no task registered, the producer is invoked exactly once, every
caller is assigned the one task, and once it settles (fulfils *or*
rejects) all callers observe that same outcome; moreover, in every
execution the key is deregistered only after the task's outcome is
recorded — any invoked task that is no longer registered has a recorded
outcome. -/
theorem coalescer_single_flight (cs : List Nat) (hcs : cs ≠ []) (o : Outcome) :
    (coRun coInit (cs.map CoEvent.arrive)).invocations = 1 ∧
    (∀ a ∈ (coRun coInit (cs.map CoEvent.arrive)).assigned, a.2 = 0) ∧
    (coRun coInit (cs.map CoEvent.arrive ++
      [CoEvent.settle o, CoEvent.cleanup])).pending = none ∧
    ((coRun coInit (cs.map CoEvent.arrive ++
      [CoEvent.settle o, CoEvent.cleanup])).outcomes.lookup 0 = some o) ∧
    (∀ a ∈ (coRun coInit (cs.map CoEvent.arrive ++
        [CoEvent.settle o, CoEvent.cleanup])).assigned,
      (coRun coInit (cs.map CoEvent.arrive ++
        [CoEvent.settle o, CoEvent.cleanup])).outcomes.lookup a.2 = some o) ∧
    (∀ es : List CoEvent, ∀ t : Nat,
      t < (coRun coInit es).nextId → (coRun coInit es).pending ≠ some t →
      ((coRun coInit es).outcomes.lookup t).isSome = true) := by
  obtain ⟨c, rest, rfl⟩ : ∃ c rest, cs = c :: rest := by
    cases cs with
    | nil => exact absurd rfl hcs
    | cons c rest => exact ⟨c, rest, rfl⟩
  have hst1 : coStep coInit (.arrive c) =
      { pending := some 0, nextId := 1, invocations := 1,
        assigned := [(c, 0)], outcomes := [] } := by
    simp [coStep, coInit]
  obtain ⟨hA_pend, hA_inv, hA_next, hA_out, hA_asg⟩ :=
    coRun_arrives_join rest (coStep coInit (.arrive c)) 0 (by rw [hst1])
  set stA := coRun (coStep coInit (.arrive c)) (rest.map CoEvent.arrive)
    with hstA
  have hAout2 : stA.outcomes = [] := by
    rw [hA_out, hst1]
  have hAinv2 : stA.invocations = 1 := by
    rw [hA_inv, hst1]
  have hflat : coRun coInit ((c :: rest).map CoEvent.arrive) = stA := by
    rw [hstA]
    rfl
  have hasg : ∀ a ∈ (coRun coInit ((c :: rest).map CoEvent.arrive)).assigned,
      a.2 = 0 := by
    intro a ha
    rw [hflat] at ha
    rcases hA_asg a ha with hmem | ht
    · rw [hst1] at hmem
      rcases List.mem_singleton.mp hmem with rfl
      rfl
    · exact ht
  have happ : coRun coInit (((c :: rest).map CoEvent.arrive) ++
      [CoEvent.settle o, CoEvent.cleanup]) =
      coStep (coStep stA (.settle o)) .cleanup := by
    rw [hstA]
    unfold coRun
    rw [List.foldl_append]
    rfl
  have hsettle : coStep stA (.settle o) = { stA with outcomes := [(0, o)] } := by
    simp [coStep, hA_pend, hAout2]
  have hcleanup : coStep ({ stA with outcomes := [(0, o)] }) .cleanup =
      { stA with outcomes := [(0, o)], pending := none } := by
    simp [coStep, hA_pend, List.lookup]
  refine ⟨?_, hasg, ?_, ?_, ?_, ?_⟩
  · rw [hflat]
    exact hAinv2
  · rw [happ, hsettle, hcleanup]
  · rw [happ, hsettle, hcleanup]
    simp [List.lookup]
  · intro a ha
    rw [happ, hsettle, hcleanup] at ha ⊢
    have ha2 : a.2 = 0 := by
      apply hasg
      rw [hflat]
      exact ha
    rw [ha2]
    simp [List.lookup]
  · intro es t ht hne
    exact (coInv_run es coInit coInv_init).2 t ht hne

/-- Witness for C4 at two concurrent callers and a fulfilled producer. -/
theorem coalescer_single_flight_witness :
    (coRun coInit ([5, 6].map CoEvent.arrive)).invocations = 1 ∧
    (coRun coInit ([5, 6].map CoEvent.arrive ++
      [CoEvent.settle (Outcome.ok 42), CoEvent.cleanup])).outcomes.lookup 0 =
      some (Outcome.ok 42) := by
  refine ⟨(coalescer_single_flight [5, 6] (by simp) (Outcome.ok 42)).1, ?_⟩
  exact (coalescer_single_flight [5, 6] (by simp) (Outcome.ok 42)).2.2.2.1

/-- Claim C3, counterexample: a request whose sanitised query is
non-empty and whose year range is 2000-2005 still admits a row running
1990-1995 on the full-text path — the raw SQL interpolates the status
and genre filters but never the year-range clause of
`buildSearchWhere`, while the spec's overlap criterion rejects the row. -/
theorem fulltext_ignores_year_range :
    usesFullTextPath c3params = true ∧
    sanitizeQuery c3params.query = "solo leveling" ∧
    yearRangeFilter c3params = some { start := 2000, rangeEnd := 2005 } ∧
    fullTextWhere c3params c3row = true ∧
    yearOverlapSpec { start := 2000, rangeEnd := 2005 } 1990 (some 1995) = false := by
  refine ⟨by decide, rfl, rfl, rfl, by decide⟩

/-- Claim C3, amended: on the full-text path only the status and
genre-slug filters are AND-composed with the vector match — the row
predicate is invariant under any change of the requested year range —
while on the empty-query filter path the year-range clause of
`buildSearchWhere` is AND-composed and is equivalent to the overlap
criterion `max(s, rs) ≤ min(e ?? +∞, re)` (for rows with `s ≤ e` and
requests with `rs ≤ re`). -/
theorem search_filter_composition (p : SearchParams) (row : ManhwaRow)
    (yr : YearRange) (s : Int)
    (hyr : yearRangeFilter p = some yr)
    (hs : row.startYear = some s)
    (hwf : ∀ e, row.endYear = some e → s ≤ e)
    (hreq : yr.start ≤ yr.rangeEnd) :
    (∀ yrq : Option YearRange,
      fullTextWhere (withYearRange p yrq) row = fullTextWhere p row) ∧
    (yearCond p row = yearOverlapSpec yr s row.endYear) ∧
    (filterWhere p row =
      (statusCond p row && yearOverlapSpec yr s row.endYear && genreCond p row)) := by
  have hft : ∀ yrq : Option YearRange,
      fullTextWhere (withYearRange p yrq) row = fullTextWhere p row := by
    intro yrq
    unfold fullTextWhere statusCond genreCond statusFilterList genreFilterList
      withYearRange
    cases p.filters <;> rfl
  have hyc : yearCond p row = yearOverlapSpec yr s row.endYear := by
    rcases hE : row.endYear with _ | e
    · apply Bool.eq_iff_iff.mpr
      simp only [yearCond, yearOverlapSpec, hyr, hs, hE, Bool.or_eq_true,
        Bool.and_eq_true, decide_eq_true_eq, and_true]
      omega
    · have hse : s ≤ e := hwf e hE
      apply Bool.eq_iff_iff.mpr
      simp only [yearCond, yearOverlapSpec, hyr, hs, hE, Bool.or_eq_true,
        Bool.and_eq_true, decide_eq_true_eq]
      omega
  refine ⟨hft, hyc, ?_⟩
  unfold filterWhere
  rw [hyc]

/-- Witness for the amended C3 at an overlapping row. -/
theorem search_filter_composition_witness :
    yearCond c3wParams c3wRow =
      yearOverlapSpec { start := 2000, rangeEnd := 2005 } 1999 (some 2001) :=
  (search_filter_composition c3wParams c3wRow { start := 2000, rangeEnd := 2005 }
    1999 rfl rfl
    (fun e he => by
      simp only [c3wRow] at he
      injection he with h
      omega)
    (by decide)).2.1

/-- Claim C7, counterexample: two params objects that are logically
equal (identical canonical forms) but list the nested `filters` fields
in a different order produce different search cache keys — only the
top-level keys are sorted before `JSON.stringify`. -/
theorem nested_field_order_changes_key :
    canonJs (.vObj c7p) = canonJs (.vObj c7pSwapped) ∧
    generateSearchCacheKey c7p ≠ generateSearchCacheKey c7pSwapped := by
  exact ⟨rfl, by decide⟩

/-- Claim C7, amended: the derived key is stable under reordering of
the *top-level* fields only — for params objects that are permutations
of one another field-for-field (with distinct keys, as JS objects have)
the keys coincide; reordering fields nested inside `filters` or
`pagination` can change the key. -/
theorem cache_key_stable_under_top_level_order (p q : List (String × JsVal))
    (hperm : p.Perm q) (hnd : (p.map Prod.fst).Nodup) :
    generateSearchCacheKey p = generateSearchCacheKey q := by
  unfold generateSearchCacheKey
  have hkeys : List.insertionSort strLe (p.map Prod.fst) =
      List.insertionSort strLe (q.map Prod.fst) :=
    List.eq_of_perm_of_sorted
      (((List.perm_insertionSort strLe _).trans (hperm.map Prod.fst)).trans
        (List.perm_insertionSort strLe _).symm)
      (List.sorted_insertionSort strLe _)
      (List.sorted_insertionSort strLe _)
  rw [hkeys]
  have hmap : (List.insertionSort strLe (q.map Prod.fst)).map
        (fun k => (k, getField k p)) =
      (List.insertionSort strLe (q.map Prod.fst)).map
        (fun k => (k, getField k q)) :=
    List.map_congr_left (fun a _ => by rw [getField_perm hperm hnd a])
  rw [hmap]

/-- Witness for the amended C7 at a two-field swap. -/
theorem cache_key_stable_under_top_level_order_witness :
    generateSearchCacheKey [("a", .vNum 1), ("b", .vNum 2)] =
      generateSearchCacheKey [("b", .vNum 2), ("a", .vNum 1)] :=
  cache_key_stable_under_top_level_order _ _
    (List.Perm.swap ("b", JsVal.vNum 2) ("a", JsVal.vNum 1) [])
    (by simp)

/-- Claim C9, counterexample: a 5-character synopsis is not returned
unchanged — all three result paths append `'...'` unconditionally. -/
theorem synopsis_short_still_gets_ellipsis :
    ("short" : String).length ≤ 200 ∧
    synopsisFullText "short" = "short..." ∧
    synopsisFilter "short" = "short..." ∧
    synopsisExternal "short" = "short..." ∧
    ("short..." : String) ≠ "short" := by
  refine ⟨by decide, rfl, rfl, rfl, by decide⟩

/-- Claim C9, amended: on the full-text, filter and external paths alike
the synopsis is the first `min(200, length)` characters of the stored
text with `'...'` appended in every case — the suffix is not conditional
on the original being longer than 200 characters. -/
theorem synopsis_truncation_uniform (s : String) :
    synopsisFilter s = synopsisFullText s ∧
    synopsisExternal s = synopsisFullText s ∧
    (s.length ≤ 200 → synopsisFullText s = s ++ "...") ∧
    (200 < s.length → (synopsisFullText s).length = 203) := by
  refine ⟨rfl, rfl, fun h => ?_, fun h => ?_⟩
  · have ht : s.data.take 200 = s.data := List.take_of_length_le h
    unfold synopsisFullText
    rw [ht]
  · unfold synopsisFullText
    rw [String.length_append]
    have hlen : (String.mk (s.data.take 200)).length = min 200 s.data.length := by
      show (s.data.take 200).length = _
      exact List.length_take 200 s.data
    have hds : s.data.length = s.length := rfl
    have h3 : ("..." : String).length = 3 := rfl
    rw [hlen, hds, h3]
    omega

/-- Witness for the amended C9 at a short synopsis. -/
theorem synopsis_truncation_uniform_witness :
    synopsisFullText "short" = "short" ++ "..." :=
  (synopsis_truncation_uniform "short").2.2.1 (by decide)

/-- Claim C5, counterexample: a request with `offset = 9000`,
`limit = 1500` has requested `offset + limit = 10500 > 10000`, yet the
check runs *after* the clamp `Math.min(limit || 20, 100)`, sees
`9000 + 100 ≤ 10000`, and the upstream request is performed (with the
clamped limit 100). -/
theorem pagination_ceiling_bypassed_by_clamp :
    9000 + 1500 > 10000 ∧
    searchMangadex { limit := some 1500, offset := some 9000 } =
      .ok (100, 9000) := by
  exact ⟨by decide, rfl⟩

/-- Claim C5, amended: the ceiling check applies to the *effective*
values — offset defaulted, limit clamped to `min(limit || 20, 100)`.
For requested limits already in 1..100 the claim holds as stated:
`offset + limit > 10 000` fails with `PaginationLimitExceeded` and no
upstream request is made, and otherwise the upstream request proceeds. -/
theorem pagination_ceiling_after_clamp (l off : Nat) (h1 : 1 ≤ l)
    (h2 : l ≤ 100) :
    (searchMangadex { limit := some l, offset := some off } =
        .error paginationCeilingError ↔ 10000 < off + l) ∧
    (off + l ≤ 10000 →
      searchMangadex { limit := some l, offset := some off } = .ok (l, off)) := by
  have hl : effectiveLimit { limit := some l, offset := some off } = l := by
    show min (if l = 0 then 20 else l) 100 = l
    rw [if_neg (by omega)]
    omega
  have ho : effectiveOffset { limit := some l, offset := some off } = off := rfl
  refine ⟨⟨fun h => ?_, fun h => ?_⟩, fun h => ?_⟩
  · by_contra hc
    push_neg at hc
    unfold searchMangadex at h
    rw [hl, ho, if_neg (by omega)] at h
    simp at h
  · unfold searchMangadex
    rw [hl, ho, if_pos (by omega)]
  · unfold searchMangadex
    rw [hl, ho, if_neg (by omega)]

/-- Witness for the amended C5 at `limit = 100`, `offset = 9901`. -/
theorem pagination_ceiling_after_clamp_witness :
    searchMangadex { limit := some 100, offset := some 9901 } =
      .error paginationCeilingError :=
  (pagination_ceiling_after_clamp 100 9901 (by decide) (by decide)).1.mpr
    (by decide)

/-- Claim C6: refuted on the code.  `ensureValidToken` performs its
login POST with the bare `axios` client, so neither the global
interceptor limiter nor `checkEndpointRateLimit('login')` (which no
code calls) guards it: 31 token-refresh attempts whose logins fail
upstream, all within one 3600-second window, issue 31 login requests
while the 30-per-hour login limiter has consumed no point at all. -/
theorem login_limiter_never_consulted :
    (runFailedLogins 31).loginLog.length = 31 ∧
    (runFailedLogins 31).loginLog.all
      (fun t => decide (0 ≤ t) && decide (t < 3600000)) = true ∧
    (runFailedLogins 31).loginLimiterConsumed = 0 ∧
    30 < (runFailedLogins 31).loginLog.length := by
  refine ⟨by decide, by decide, by decide, by decide⟩

end Manhco
